import Mathlib

/-!
OpenCamera: late-binding symbol table and ALSA audio device.

A shallow embedding of `modules/audio_device/linux/latebindingsymboltable_linux.h`
(class template `LateBindingSymbolTable`), with the properties of `Load()`,
`Unload()`, `IsLoaded()`, `GetSymbol()` and `GetSymbolName()`, and a model of the
stream lifecycle of `AudioDeviceLinuxALSA`
(`modules/audio_device/linux/audio_device_alsa_linux.h`) and the stream-id
counter of `MediaService` (`media/media_service.cc`).

Conventions of the embedding:

* a `void*` is a natural number and `NULL` is `0`;
* a C array `T a[N]` is a list of exactly `N` cells;
* the three helpers `InternalLoadDll`, `InternalUnloadDll` and
  `InternalLoadSymbols` are only declared in the header; they are a parameter
  (`NativeLib`) acting on an abstract state `W` of the native world, so that a
  theorem quantified over `NativeLib` holds for every behaviour of the native
  library;
* every call of a helper is appended to a ghost log (`Proc.calls`), which is how
  "no native open is attempted" and "the handle is released once" are stated.
-/

namespace avp
namespace adm_linux

/-! ## Data model -/

/-- An untyped pointer `void*`; the null pointer is `0`. -/
abbrev VoidPtr := Nat

/-- Header line 26: `typedef void* DllHandle;`. -/
abbrev DllHandle := VoidPtr

/-- Header line 28: `const DllHandle kInvalidDllHandle = NULL;`. -/
def kInvalidDllHandle : DllHandle := 0

/-- A C array with exactly `N` cells. -/
abbrev CArray (α : Type) (N : Nat) := { l : List α // l.length = N }

/-- The effect of `memset(a, 0, sizeof(a))` on an array of pointers. -/
def CArray.zeroed (N : Nat) : CArray VoidPtr N :=
  ⟨List.replicate N 0, List.length_replicate N 0⟩

/-- The C expression `a[index]` for an `int` index: the cell when the index is
inside the array, `none` when the access is out of bounds. -/
def CArray.read {α : Type} {N : Nat} (a : CArray α N) (index : Int) : Option α :=
  if 0 ≤ index then a.val.get? index.toNat else none

/-- One call of a native helper, as recorded in the ghost log. -/
inductive NativeCall where
  /-- The call `InternalLoadDll(dll_name)` and the handle it returned. -/
  | loadDll (dll_name : String) (result : DllHandle)
  /-- The call `InternalLoadSymbols(handle, ...)` and the boolean it returned. -/
  | loadSymbols (handle : DllHandle) (ok : Bool)
  /-- The call `InternalUnloadDll(handle)`. -/
  | unloadDll (handle : DllHandle)
  deriving DecidableEq, Repr

/-- Header lines 34-41: the helpers used by the class, whose definitions are not
part of the header. `W` is the state of the native world (the dynamic loader);
`InternalLoadSymbols` receives the slots and returns them as it left them. -/
structure NativeLib (W : Type) (N : Nat) where
  InternalLoadDll : String → W → DllHandle × W
  InternalUnloadDll : DllHandle → W → W
  InternalLoadSymbols :
    DllHandle → Int → CArray String N → CArray VoidPtr N → W → Bool × CArray VoidPtr N × W

/-- The template arguments `kDllName` and `kSymbolNames` of an instance whose
`SYMBOL_TABLE_SIZE` is `N` (header lines 43-45 and 129-131). -/
structure TableParams (N : Nat) where
  kDllName : String
  kSymbolNames : CArray String N

/-- Header lines 105-108: the data members of `LateBindingSymbolTable`. -/
structure LateBindingSymbolTable (N : Nat) where
  handle_ : DllHandle
  undefined_symbols_ : Bool
  symbols_ : CArray VoidPtr N
  deriving DecidableEq

/-- A symbol table together with the native world it runs in and the ghost log
of native calls made so far. -/
structure Proc (W : Type) (N : Nat) where
  table : LateBindingSymbolTable N
  world : W
  calls : List NativeCall

/-! ## Operations of the class -/

/-- Header lines 48-51: the constructor. -/
def LateBindingSymbolTable.new (N : Nat) : LateBindingSymbolTable N :=
  { handle_ := kInvalidDllHandle, undefined_symbols_ := false, symbols_ := CArray.zeroed N }

/-- A freshly constructed table in the native world `w`, before any call. -/
def Proc.fresh {W : Type} (N : Nat) (w : W) : Proc W N :=
  { table := LateBindingSymbolTable.new N, world := w, calls := [] }

/-- Header line 55: `static int NumSymbols() { return SYMBOL_TABLE_SIZE; }`. -/
def NumSymbols (N : Nat) : Int := (N : Int)

/-- Header line 63: `bool IsLoaded() const { return handle_ != kInvalidDllHandle; }`. -/
def IsLoaded {N : Nat} (t : LateBindingSymbolTable N) : Bool :=
  decide (t.handle_ ≠ kInvalidDllHandle)

/-- Header lines 88-95: `Unload()`. -/
def Unload {W : Type} {N : Nat} (lib : NativeLib W N) (s : Proc W N) : Proc W N :=
  if !IsLoaded s.table then
    s
  else
    { table :=
        { handle_ := kInvalidDllHandle
          undefined_symbols_ := s.table.undefined_symbols_
          symbols_ := CArray.zeroed N }
      world := lib.InternalUnloadDll s.table.handle_ s.world
      calls := s.calls ++ [NativeCall.unloadDll s.table.handle_] }

/-- Header lines 67-86: `Load()`. The first component is the returned boolean. -/
def Load {W : Type} {N : Nat} (lib : NativeLib W N) (p : TableParams N) (s : Proc W N) :
    Bool × Proc W N :=
  if IsLoaded s.table then
    (true, s)
  else if s.table.undefined_symbols_ then
    (false, s)
  else
    let opened := lib.InternalLoadDll p.kDllName s.world
    let s1 : Proc W N :=
      { table :=
          { handle_ := opened.1
            undefined_symbols_ := s.table.undefined_symbols_
            symbols_ := s.table.symbols_ }
        world := opened.2
        calls := s.calls ++ [NativeCall.loadDll p.kDllName opened.1] }
    if !IsLoaded s1.table then
      (false, s1)
    else
      let resolved :=
        lib.InternalLoadSymbols s1.table.handle_ (NumSymbols N) p.kSymbolNames
          s1.table.symbols_ s1.world
      let s2 : Proc W N :=
        { table :=
            { handle_ := s1.table.handle_
              undefined_symbols_ := s1.table.undefined_symbols_
              symbols_ := resolved.2.1 }
          world := resolved.2.2
          calls := s1.calls ++ [NativeCall.loadSymbols s1.table.handle_ resolved.1] }
      if !resolved.1 then
        (false,
          Unload lib
            { table :=
                { handle_ := s2.table.handle_
                  undefined_symbols_ := true
                  symbols_ := s2.table.symbols_ }
              world := s2.world
              calls := s2.calls })
      else
        (true, s2)

/-- What a call of an accessor does: a debug assertion fails, the array is
indexed outside its bounds, or a value is returned. -/
inductive Access (α : Type) where
  | assertFailed
  | outOfBounds
  | value (v : α)
  deriving DecidableEq, Repr

/-- Header lines 58-61: `GetSymbolName(index)`, with `DCHECK_LT(index, NumSymbols())`. -/
def GetSymbolName {N : Nat} (p : TableParams N) (index : Int) : Access String :=
  if index < NumSymbols N then
    match p.kSymbolNames.read index with
    | some name => Access.value name
    | none => Access.outOfBounds
  else
    Access.assertFailed

/-- Header lines 99-103: `GetSymbol(index)`, with `DCHECK(IsLoaded())` and
`DCHECK_LT(index, NumSymbols())`. -/
def GetSymbol {N : Nat} (t : LateBindingSymbolTable N) (index : Int) : Access VoidPtr :=
  if IsLoaded t then
    if index < NumSymbols N then
      match t.symbols_.read index with
      | some sym => Access.value sym
      | none => Access.outOfBounds
    else
      Access.assertFailed
  else
    Access.assertFailed

/-! ## Sequences of calls -/

/-- A call made by a user of the table. -/
inductive Op where
  | load
  | unload
  deriving DecidableEq, Repr

/-- The state after one call (the boolean returned by `Load()` is dropped). -/
def step {W : Type} {N : Nat} (lib : NativeLib W N) (p : TableParams N) (s : Proc W N) :
    Op → Proc W N
  | Op.load => (Load lib p s).2
  | Op.unload => Unload lib s

/-- The state after a sequence of calls, made from left to right. -/
def run {W : Type} {N : Nat} (lib : NativeLib W N) (p : TableParams N) :
    List Op → Proc W N → Proc W N
  | [], s => s
  | op :: ops, s => run lib p ops (step lib p s op)

/-- Number of `InternalLoadDll` calls in a log. -/
def openAttempts : List NativeCall → Nat
  | [] => 0
  | NativeCall.loadDll _ _ :: cs => openAttempts cs + 1
  | _ :: cs => openAttempts cs

/-- Number of `InternalLoadDll` calls in a log that returned the invalid handle. -/
def failedOpens : List NativeCall → Nat
  | [] => 0
  | NativeCall.loadDll _ h :: cs =>
      if h = kInvalidDllHandle then failedOpens cs + 1 else failedOpens cs
  | _ :: cs => failedOpens cs

/-- Number of `InternalLoadSymbols` calls in a log that returned `false`. -/
def resolutionFailures : List NativeCall → Nat
  | [] => 0
  | NativeCall.loadSymbols _ ok :: cs =>
      if ok then resolutionFailures cs else resolutionFailures cs + 1
  | _ :: cs => resolutionFailures cs

/-- Number of `Unload()` calls in a sequence of calls. -/
def unloadOps : List Op → Nat
  | [] => 0
  | Op.unload :: ops => unloadOps ops + 1
  | Op.load :: ops => unloadOps ops

/-! ## Sample native libraries

Concrete instances of `NativeLib`, used to evaluate the operations on concrete
inputs. The native world is the number of `InternalLoadDll` calls made so far. -/

/-- Address of `name` in a library that exposes the symbols `exposed`, or the
null pointer when the library does not have it. -/
def sampleAddress (exposed : List String) (name : String) : VoidPtr :=
  if name ∈ exposed then 4096 + exposed.indexOf name else 0

/-- A library that can be opened and exposes exactly the symbols `exposed`: each
open returns a new non-null handle, and resolution binds every name it finds and
reports whether all of them were found. -/
def sampleLib (exposed : List String) (N : Nat) : NativeLib Nat N where
  InternalLoadDll := fun _ w => (1000 + w, w + 1)
  InternalUnloadDll := fun _ w => w
  InternalLoadSymbols := fun _ _ names _ w =>
    (names.val.all (fun name => decide (name ∈ exposed)),
      ⟨names.val.map (sampleAddress exposed), by simp [names.property]⟩, w)

/-- A library that is not installed: every open returns the invalid handle. -/
def absentLib (N : Nat) : NativeLib Nat N where
  InternalLoadDll := fun _ w => (kInvalidDllHandle, w + 1)
  InternalUnloadDll := fun _ w => w
  InternalLoadSymbols := fun _ _ _ slots w => (false, slots, w)

/-- A table instance with three required symbols. -/
def alsaParams : TableParams 3 where
  kDllName := "libasound.so.2"
  kSymbolNames := ⟨["snd_pcm_open", "snd_pcm_close", "snd_pcm_readi"], rfl⟩

/-- A library exposing all three symbols of `alsaParams`. -/
def fullLib : NativeLib Nat 3 :=
  sampleLib ["snd_pcm_open", "snd_pcm_close", "snd_pcm_readi"] 3

/-- A library exposing only two of the three symbols of `alsaParams`. -/
def partialLib : NativeLib Nat 3 :=
  sampleLib ["snd_pcm_open", "snd_pcm_close"] 3

/-! ## Outcomes of the native calls of one `Load()` -/

/-- What `InternalLoadDll(kDllName)` returns when called in state `s`. -/
def openResult {W : Type} {N : Nat} (lib : NativeLib W N) (p : TableParams N) (s : Proc W N) :
    DllHandle × W :=
  lib.InternalLoadDll p.kDllName s.world

/-- What `InternalLoadSymbols(handle_, NumSymbols(), kSymbolNames, symbols_)`
returns when called right after the open of `openResult`. -/
def resolveResult {W : Type} {N : Nat} (lib : NativeLib W N) (p : TableParams N) (s : Proc W N) :
    Bool × CArray VoidPtr N × W :=
  lib.InternalLoadSymbols (openResult lib p s).1 (NumSymbols N) p.kSymbolNames
    s.table.symbols_ (openResult lib p s).2

/-- The `Load()` call made in state `s` opens the native library successfully
and then fails at symbol resolution: the table is neither loaded nor marked as
failed (so the open is attempted), `InternalLoadDll` returns a valid handle, and
`InternalLoadSymbols` returns `false`. -/
def ResolutionFails {W : Type} {N : Nat} (lib : NativeLib W N) (p : TableParams N)
    (s : Proc W N) : Prop :=
  IsLoaded s.table = false ∧ s.table.undefined_symbols_ = false ∧
    (openResult lib p s).1 ≠ kInvalidDllHandle ∧ (resolveResult lib p s).1 = false

/-- The invariant carried along a sequence of calls in which `unloads` calls of
`Unload()` have been made so far: a failed table is not loaded; symbol
resolution has failed at most once, and not at all while the flag is clear; and
the opens that returned a valid handle are accounted for by the `Unload()` calls,
plus one when the table is loaded or failed. -/
def LoadInvariant {W : Type} {N : Nat} (s : Proc W N) (unloads : Nat) : Prop :=
  (s.table.undefined_symbols_ = true → IsLoaded s.table = false) ∧
    resolutionFailures s.calls ≤ 1 ∧
    (s.table.undefined_symbols_ = false → resolutionFailures s.calls = 0) ∧
    (IsLoaded s.table = false → s.table.undefined_symbols_ = false →
      openAttempts s.calls ≤ failedOpens s.calls + unloads) ∧
    openAttempts s.calls ≤ failedOpens s.calls + unloads + 1

end adm_linux

/-! ## Audio device: stream lifecycle

The header `audio_device_alsa_linux.h` only declares `StartRecording`,
`StartPlayout` and the observers; their bodies are in a source file that is not
part of the sources at hand, so this section follows the specification. -/

/-- Modelled from the spec: the bodies of the `AudioDeviceLinuxALSA` methods are
missing, so the state of one stream direction is the one of section 3 of the
specification, "Stream state (one instance each for record, playout):
Uninitialized, Initialized, Started, Stopped". -/
inductive StreamState where
  | Uninitialized
  | Initialized
  | Started
  | Stopped
  deriving DecidableEq, Repr

/-- Modelled from the spec: the error taxonomy of section 7. -/
inductive DeviceError where
  | ConfigurationError
  | TransientDeviceError
  | FatalDeviceError
  | SymbolResolutionError
  deriving DecidableEq, Repr

/-- Modelled from the spec: the status code a control-path method returns
synchronously (section 7): success, or one error of the taxonomy. -/
inductive Status where
  | ok
  | error (e : DeviceError)
  deriving DecidableEq, Repr

/-- Modelled from the spec: one stream state per direction (section 3); in the
header the two directions are the flag pairs `_recIsInitialized`/`_recording` and
`_playIsInitialized`/`_playing` (lines 178-182). -/
structure AudioDeviceLinuxALSA where
  record : StreamState
  playout : StreamState
  deriving DecidableEq, Repr

/-- Modelled from the spec: a stream counts as initialized once `Init*` has
succeeded and until `Stop*` returns it to `Uninitialized` (section 4.2); these
are the states in which the native stream handle is held (section 3). -/
def StreamState.isInitialized : StreamState → Bool
  | StreamState.Uninitialized => false
  | StreamState.Initialized => true
  | StreamState.Started => true
  | StreamState.Stopped => true

/-- Modelled from the spec: a stream is running exactly in state `Started`
(section 4.2: `Start*` spawns the loop thread, `Stop*` joins it). -/
def StreamState.isStarted : StreamState → Bool
  | StreamState.Started => true
  | _ => false

/-- Modelled from the spec: `Start*` on one stream (the body of the method is
missing). Section 4.2 gives the single transition `Initialized → Started`.
By section 8, `Start*` without a prior successful `Init*` fails with
ConfigurationError, and section 7 classifies a method called in the wrong
lifecycle state as ConfigurationError. A failed call leaves the state as it is. -/
def StreamState.start : StreamState → Status × StreamState
  | StreamState.Initialized => (Status.ok, StreamState.Started)
  | st => (Status.error DeviceError.ConfigurationError, st)

/-- Modelled from the spec: observer `RecordingIsInitialized()` (declared at
header line 60). -/
def RecordingIsInitialized (d : AudioDeviceLinuxALSA) : Bool := d.record.isInitialized

/-- Modelled from the spec: observer `PlayoutIsInitialized()` (declared at
header line 57). -/
def PlayoutIsInitialized (d : AudioDeviceLinuxALSA) : Bool := d.playout.isInitialized

/-- Modelled from the spec: observer `Recording()` (declared at header line 68). -/
def Recording (d : AudioDeviceLinuxALSA) : Bool := d.record.isStarted

/-- Modelled from the spec: observer `Playing()` (declared at header line 65). -/
def Playing (d : AudioDeviceLinuxALSA) : Bool := d.playout.isStarted

/-- Modelled from the spec: `StartRecording()` (declared at header line 66),
the `Start*` transition applied to the record stream. -/
def StartRecording (d : AudioDeviceLinuxALSA) : Status × AudioDeviceLinuxALSA :=
  (d.record.start.1, { record := d.record.start.2, playout := d.playout })

/-- Modelled from the spec: `StartPlayout()` (declared at header line 63), the
`Start*` transition applied to the playout stream. -/
def StartPlayout (d : AudioDeviceLinuxALSA) : Status × AudioDeviceLinuxALSA :=
  (d.playout.start.1, { record := d.record, playout := d.playout.start.2 })

/-! ## Media service: stream ids

`MediaService::GenerateStreamId` and the constructor are in
`media/media_service.cc`; the declaration of the data member `max_stream_id_` is
in `media/media_service.h`, which is not among the sources at hand. The member
is taken to be an unsigned integer of `bits` bits, `bits` being a parameter
(`uint32_t`, the type `GenerateStreamId` returns, is `bits = 32`). -/

/-- The part of `MediaService` that `GenerateStreamId` uses: the counter
`max_stream_id_`, an unsigned integer of `bits` bits. -/
structure MediaService (bits : Nat) where
  max_stream_id_ : Nat
  deriving DecidableEq, Repr

/-- File `media_service.cc`, lines 31-45: the constructor, `max_stream_id_(0)`. -/
def MediaService.new (bits : Nat) : MediaService bits :=
  { max_stream_id_ := 0 }

/-- File `media_service.cc`, lines 138-140:
`uint32_t MediaService::GenerateStreamId() { return ++max_stream_id_; }`.
The pre-increment wraps at the width of the member, and the new value is
converted to the return type `uint32_t`. The first component is the returned id. -/
def GenerateStreamId {bits : Nat} (m : MediaService bits) : Nat × MediaService bits :=
  let incremented := (m.max_stream_id_ + 1) % 2 ^ bits
  (incremented % 2 ^ 32, { max_stream_id_ := incremented })

/-- The service after `k` calls of `GenerateStreamId` on a freshly constructed
`MediaService`. -/
def MediaService.afterCalls (bits : Nat) : Nat → MediaService bits
  | 0 => MediaService.new bits
  | k + 1 => (GenerateStreamId (MediaService.afterCalls bits k)).2

/-- The id returned by call number `k + 1` of `GenerateStreamId` on a freshly
constructed `MediaService` (calls are counted from one). -/
def streamIdOfCall (bits : Nat) (k : Nat) : Nat :=
  (GenerateStreamId (MediaService.afterCalls bits k)).1

namespace adm_linux

/-! ## Basic facts -/

section Lemmas

variable {W : Type} {N : Nat}

theorem isLoaded_eq_false_iff (t : LateBindingSymbolTable N) :
    IsLoaded t = false ↔ t.handle_ = kInvalidDllHandle := by
  simp [IsLoaded]

theorem isLoaded_eq_true_iff (t : LateBindingSymbolTable N) :
    IsLoaded t = true ↔ t.handle_ ≠ kInvalidDllHandle := by
  simp [IsLoaded]

theorem unload_of_not_loaded (lib : NativeLib W N) (s : Proc W N)
    (h : IsLoaded s.table = false) : Unload lib s = s := by
  simp [Unload, h]

theorem unload_of_loaded (lib : NativeLib W N) (s : Proc W N) (h : IsLoaded s.table = true) :
    Unload lib s =
      { table :=
          { handle_ := kInvalidDllHandle
            undefined_symbols_ := s.table.undefined_symbols_
            symbols_ := CArray.zeroed N }
        world := lib.InternalUnloadDll s.table.handle_ s.world
        calls := s.calls ++ [NativeCall.unloadDll s.table.handle_] } := by
  simp [Unload, h]

theorem load_of_loaded (lib : NativeLib W N) (p : TableParams N) (s : Proc W N)
    (h : IsLoaded s.table = true) : Load lib p s = (true, s) := by
  simp [Load, h]

theorem load_of_failed (lib : NativeLib W N) (p : TableParams N) (s : Proc W N)
    (h : IsLoaded s.table = false) (hf : s.table.undefined_symbols_ = true) :
    Load lib p s = (false, s) := by
  simp [Load, h, hf]

theorem load_open_fails (lib : NativeLib W N) (p : TableParams N) (s : Proc W N)
    (h : IsLoaded s.table = false) (hf : s.table.undefined_symbols_ = false)
    (ho : (openResult lib p s).1 = kInvalidDllHandle) :
    Load lib p s =
      (false,
        { table :=
            { handle_ := kInvalidDllHandle
              undefined_symbols_ := false
              symbols_ := s.table.symbols_ }
          world := (openResult lib p s).2
          calls := s.calls ++ [NativeCall.loadDll p.kDllName kInvalidDllHandle] }) := by
  simp only [openResult] at ho
  rw [isLoaded_eq_false_iff] at h
  simp [Load, h, hf, IsLoaded, ho, openResult]

theorem load_resolution_fails (lib : NativeLib W N) (p : TableParams N) (s : Proc W N)
    (h : ResolutionFails lib p s) :
    Load lib p s =
      (false,
        { table :=
            { handle_ := kInvalidDllHandle
              undefined_symbols_ := true
              symbols_ := CArray.zeroed N }
          world := lib.InternalUnloadDll (openResult lib p s).1 (resolveResult lib p s).2.2
          calls := s.calls ++
            [NativeCall.loadDll p.kDllName (openResult lib p s).1,
              NativeCall.loadSymbols (openResult lib p s).1 false,
              NativeCall.unloadDll (openResult lib p s).1] }) := by
  obtain ⟨hl, hf, ho, hr⟩ := h
  simp only [resolveResult, openResult] at ho hr
  rw [isLoaded_eq_false_iff] at hl
  simp [Load, Unload, hl, hf, IsLoaded, ho, hr, openResult, resolveResult]

theorem load_succeeds (lib : NativeLib W N) (p : TableParams N) (s : Proc W N)
    (h : IsLoaded s.table = false) (hf : s.table.undefined_symbols_ = false)
    (ho : (openResult lib p s).1 ≠ kInvalidDllHandle) (hr : (resolveResult lib p s).1 = true) :
    Load lib p s =
      (true,
        { table :=
            { handle_ := (openResult lib p s).1
              undefined_symbols_ := false
              symbols_ := (resolveResult lib p s).2.1 }
          world := (resolveResult lib p s).2.2
          calls := s.calls ++
            [NativeCall.loadDll p.kDllName (openResult lib p s).1,
              NativeCall.loadSymbols (openResult lib p s).1 true] }) := by
  simp only [resolveResult, openResult] at ho hr
  rw [isLoaded_eq_false_iff] at h
  simp [Load, h, hf, IsLoaded, ho, hr, openResult, resolveResult]

theorem zeroed_read (N : Nat) (i : Int) (h0 : 0 ≤ i) (hN : i < NumSymbols N) :
    (CArray.zeroed N).read i = some 0 := by
  have hlt : i.toNat < N := by
    unfold NumSymbols at hN
    omega
  simp [CArray.read, CArray.zeroed, h0, List.getElem?_replicate, hlt]

end Lemmas

/-! ## `Load()` and `Unload()`: single calls -/

section SingleCall

variable {W : Type} {N : Nat}

/-- C1: when the native open succeeds and symbol resolution reports failure,
`Load()` returns false, sets `undefined_symbols_`, makes exactly the native calls
open, resolve, unload (one `InternalUnloadDll`, on the handle just opened), and
leaves the table not loaded with every symbol slot null. -/
theorem load_resolution_failure_is_atomic (lib : NativeLib W N) (p : TableParams N)
    (s : Proc W N) (h : ResolutionFails lib p s) :
    (Load lib p s).1 = false ∧
      (Load lib p s).2.table.undefined_symbols_ = true ∧
      (Load lib p s).2.calls = s.calls ++
        [NativeCall.loadDll p.kDllName (openResult lib p s).1,
          NativeCall.loadSymbols (openResult lib p s).1 false,
          NativeCall.unloadDll (openResult lib p s).1] ∧
      (Load lib p s).2.world =
        lib.InternalUnloadDll (openResult lib p s).1 (resolveResult lib p s).2.2 ∧
      IsLoaded (Load lib p s).2.table = false ∧
      (Load lib p s).2.table.symbols_ = CArray.zeroed N ∧
      ∀ i : Int, 0 ≤ i → i < NumSymbols N →
        (Load lib p s).2.table.symbols_.read i = some 0 := by
  rw [load_resolution_fails lib p s h]
  refine ⟨rfl, rfl, rfl, rfl, ?_, rfl, ?_⟩
  · simp [IsLoaded]
  · intro i h0 hN
    exact zeroed_read N i h0 hN

/-- C1, on a table of three symbols and a library exposing two of them. -/
theorem load_resolution_failure_is_atomic_witness :
    ResolutionFails partialLib alsaParams (Proc.fresh 3 0) ∧
      (Load partialLib alsaParams (Proc.fresh 3 0)).1 = false ∧
      (Load partialLib alsaParams (Proc.fresh 3 0)).2.calls =
        [NativeCall.loadDll "libasound.so.2" 1000, NativeCall.loadSymbols 1000 false,
          NativeCall.unloadDll 1000] ∧
      IsLoaded (Load partialLib alsaParams (Proc.fresh 3 0)).2.table = false :=
  have hfail : ResolutionFails partialLib alsaParams (Proc.fresh 3 0) :=
    ⟨by decide, by decide, by decide, by decide⟩
  have hc := load_resolution_failure_is_atomic partialLib alsaParams (Proc.fresh 3 0) hfail
  ⟨hfail, hc.1, hc.2.2.1, hc.2.2.2.2.1⟩

/-- A table that is marked failed and not loaded ignores every call. -/
theorem step_of_failed (lib : NativeLib W N) (p : TableParams N) (s : Proc W N)
    (hl : IsLoaded s.table = false) (hf : s.table.undefined_symbols_ = true) (op : Op) :
    step lib p s op = s := by
  cases op with
  | load => simp [step, load_of_failed lib p s hl hf]
  | unload => simp [step, unload_of_not_loaded lib s hl]

theorem run_of_failed (lib : NativeLib W N) (p : TableParams N) (ops : List Op) :
    ∀ s : Proc W N, IsLoaded s.table = false → s.table.undefined_symbols_ = true →
      run lib p ops s = s := by
  induction ops with
  | nil => intro s _ _; rfl
  | cons op ops ih =>
    intro s hl hf
    simp only [run]
    rw [step_of_failed lib p s hl hf op]
    exact ih s hl hf

/-- C2: after a `Load()` that failed at symbol resolution, and whatever calls
were made in between, a later `Load()` returns false and leaves the table, the
native world and the log of native calls unchanged: no native open and no symbol
resolution is attempted. -/
theorem load_after_resolution_failure (lib : NativeLib W N) (p : TableParams N)
    (s : Proc W N) (h : ResolutionFails lib p s) (ops : List Op) :
    run lib p ops (Load lib p s).2 = (Load lib p s).2 ∧
      Load lib p (run lib p ops (Load lib p s).2) = (false, (Load lib p s).2) ∧
      (Load lib p (run lib p ops (Load lib p s).2)).2.calls = (Load lib p s).2.calls := by
  have hl : IsLoaded (Load lib p s).2.table = false := by
    rw [load_resolution_fails lib p s h]; simp [IsLoaded]
  have hf : (Load lib p s).2.table.undefined_symbols_ = true := by
    rw [load_resolution_fails lib p s h]
  have hrun := run_of_failed lib p ops (Load lib p s).2 hl hf
  rw [hrun, load_of_failed lib p _ hl hf]
  exact ⟨rfl, rfl, rfl⟩

/-- C2, on the scenario of the specification: three symbols, the library
exposes two, and the second `Load()` makes no native call. -/
theorem load_after_resolution_failure_witness :
    ResolutionFails partialLib alsaParams (Proc.fresh 3 0) ∧
      Load partialLib alsaParams
          (run partialLib alsaParams [Op.unload, Op.load]
            (Load partialLib alsaParams (Proc.fresh 3 0)).2) =
        (false, (Load partialLib alsaParams (Proc.fresh 3 0)).2) :=
  have hfail : ResolutionFails partialLib alsaParams (Proc.fresh 3 0) :=
    ⟨by decide, by decide, by decide, by decide⟩
  ⟨hfail,
    (load_after_resolution_failure partialLib alsaParams (Proc.fresh 3 0) hfail
      [Op.unload, Op.load]).2.1⟩

/-- C3: `Load()` on a loaded table returns true and leaves the table (handle,
flag and every slot), the native world and the log of native calls unchanged: no
native open and no symbol resolution is performed. -/
theorem load_of_loaded_is_noop (lib : NativeLib W N) (p : TableParams N) (s : Proc W N)
    (h : IsLoaded s.table = true) :
    (Load lib p s).1 = true ∧ (Load lib p s).2 = s ∧
      (Load lib p s).2.table.handle_ = s.table.handle_ ∧
      (Load lib p s).2.table.symbols_ = s.table.symbols_ ∧
      (Load lib p s).2.calls = s.calls := by
  rw [load_of_loaded lib p s h]
  exact ⟨rfl, rfl, rfl, rfl, rfl⟩

/-- C3, on a table loaded from a library exposing all its symbols. -/
theorem load_of_loaded_is_noop_witness :
    IsLoaded (Load fullLib alsaParams (Proc.fresh 3 0)).2.table = true ∧
      (Load fullLib alsaParams (Load fullLib alsaParams (Proc.fresh 3 0)).2).1 = true ∧
      (Load fullLib alsaParams (Load fullLib alsaParams (Proc.fresh 3 0)).2).2.calls =
        (Load fullLib alsaParams (Proc.fresh 3 0)).2.calls :=
  have hc := load_of_loaded_is_noop fullLib alsaParams
    (Load fullLib alsaParams (Proc.fresh 3 0)).2 (by decide)
  ⟨by decide, hc.1, hc.2.2.2.2⟩

/-- C4: `Load()` returns true exactly when `IsLoaded()` is true after the call,
`IsLoaded()` being "the handle differs from the invalid handle"; and a true
result means that the table was already loaded or that both the native open and
the resolution of the symbols succeeded. -/
theorem load_true_iff_loaded (lib : NativeLib W N) (p : TableParams N) (s : Proc W N) :
    ((Load lib p s).1 = true ↔ IsLoaded (Load lib p s).2.table = true) ∧
      (IsLoaded (Load lib p s).2.table = true ↔
        (Load lib p s).2.table.handle_ ≠ kInvalidDllHandle) ∧
      ((Load lib p s).1 = true →
        IsLoaded s.table = true ∨
          ((openResult lib p s).1 ≠ kInvalidDllHandle ∧ (resolveResult lib p s).1 = true ∧
            (Load lib p s).2.calls = s.calls ++
              [NativeCall.loadDll p.kDllName (openResult lib p s).1,
                NativeCall.loadSymbols (openResult lib p s).1 true])) := by
  refine ⟨?_, isLoaded_eq_true_iff _, ?_⟩
  · by_cases hl : IsLoaded s.table = true
    · rw [load_of_loaded lib p s hl]; simp [hl]
    · have hl0 : IsLoaded s.table = false := by simpa using hl
      by_cases hf : s.table.undefined_symbols_ = true
      · rw [load_of_failed lib p s hl0 hf]; simp [hl0]
      · have hf0 : s.table.undefined_symbols_ = false := by simpa using hf
        by_cases ho : (openResult lib p s).1 = kInvalidDllHandle
        · rw [load_open_fails lib p s hl0 hf0 ho]; simp [IsLoaded]
        · by_cases hr : (resolveResult lib p s).1 = true
          · rw [load_succeeds lib p s hl0 hf0 ho hr]; simp [IsLoaded, ho]
          · have hr0 : (resolveResult lib p s).1 = false := by simpa using hr
            rw [load_resolution_fails lib p s ⟨hl0, hf0, ho, hr0⟩]; simp [IsLoaded]
  · intro ht
    by_cases hl : IsLoaded s.table = true
    · exact Or.inl hl
    · right
      have hl0 : IsLoaded s.table = false := by simpa using hl
      by_cases hf : s.table.undefined_symbols_ = true
      · rw [load_of_failed lib p s hl0 hf] at ht; simp at ht
      · have hf0 : s.table.undefined_symbols_ = false := by simpa using hf
        by_cases ho : (openResult lib p s).1 = kInvalidDllHandle
        · rw [load_open_fails lib p s hl0 hf0 ho] at ht; simp at ht
        · by_cases hr : (resolveResult lib p s).1 = true
          · refine ⟨ho, hr, ?_⟩
            rw [load_succeeds lib p s hl0 hf0 ho hr]
          · have hr0 : (resolveResult lib p s).1 = false := by simpa using hr
            rw [load_resolution_fails lib p s ⟨hl0, hf0, ho, hr0⟩] at ht; simp at ht

/-- C4, on a fresh table and a library exposing all its symbols: the call
returns true, the table is loaded, and both native calls succeeded. -/
theorem load_true_iff_loaded_witness :
    (Load fullLib alsaParams (Proc.fresh 3 0)).1 = true ∧
      IsLoaded (Load fullLib alsaParams (Proc.fresh 3 0)).2.table = true ∧
      (IsLoaded (Proc.fresh 3 (0 : Nat)).table = true ∨
        ((openResult fullLib alsaParams (Proc.fresh 3 0)).1 ≠ kInvalidDllHandle ∧
          (resolveResult fullLib alsaParams (Proc.fresh 3 0)).1 = true ∧
          (Load fullLib alsaParams (Proc.fresh 3 0)).2.calls = (Proc.fresh 3 (0 : Nat)).calls ++
            [NativeCall.loadDll alsaParams.kDllName
                (openResult fullLib alsaParams (Proc.fresh 3 0)).1,
              NativeCall.loadSymbols (openResult fullLib alsaParams (Proc.fresh 3 0)).1 true])) :=
  have hc := load_true_iff_loaded fullLib alsaParams (Proc.fresh 3 0)
  ⟨by decide, hc.1.mp (by decide), hc.2.2 (by decide)⟩

/-- C5: `Unload()` on a loaded table calls `InternalUnloadDll` once, on the
current handle, and leaves the handle invalid and every slot null; on a table
that is not loaded it makes no native call and changes nothing; it never changes
`undefined_symbols_`; and a second `Unload()` changes nothing more. -/
theorem unload_spec (lib : NativeLib W N) (s : Proc W N) :
    (IsLoaded s.table = true →
        (Unload lib s).calls = s.calls ++ [NativeCall.unloadDll s.table.handle_] ∧
          (Unload lib s).world = lib.InternalUnloadDll s.table.handle_ s.world ∧
          (Unload lib s).table.handle_ = kInvalidDllHandle ∧
          (Unload lib s).table.symbols_ = CArray.zeroed N ∧
          ∀ i : Int, 0 ≤ i → i < NumSymbols N →
            (Unload lib s).table.symbols_.read i = some 0) ∧
      (IsLoaded s.table = false → Unload lib s = s) ∧
      IsLoaded (Unload lib s).table = false ∧
      (Unload lib s).table.undefined_symbols_ = s.table.undefined_symbols_ ∧
      Unload lib (Unload lib s) = Unload lib s := by
  have hafter : IsLoaded (Unload lib s).table = false := by
    by_cases hl : IsLoaded s.table = true
    · rw [unload_of_loaded lib s hl]; simp [IsLoaded]
    · have hl0 : IsLoaded s.table = false := by simpa using hl
      rw [unload_of_not_loaded lib s hl0]; exact hl0
  refine ⟨?_, unload_of_not_loaded lib s, hafter, ?_, unload_of_not_loaded lib _ hafter⟩
  · intro hl
    rw [unload_of_loaded lib s hl]
    exact ⟨rfl, rfl, rfl, rfl, fun i h0 hN => zeroed_read N i h0 hN⟩
  · by_cases hl : IsLoaded s.table = true
    · rw [unload_of_loaded lib s hl]
    · have hl0 : IsLoaded s.table = false := by simpa using hl
      rw [unload_of_not_loaded lib s hl0]

/-- C5, on a table loaded from a library exposing all its symbols. -/
theorem unload_spec_witness :
    IsLoaded (Load fullLib alsaParams (Proc.fresh 3 0)).2.table = true ∧
      (Unload fullLib (Load fullLib alsaParams (Proc.fresh 3 0)).2).calls =
        (Load fullLib alsaParams (Proc.fresh 3 0)).2.calls ++ [NativeCall.unloadDll 1000] ∧
      Unload fullLib (Proc.fresh 3 0) = Proc.fresh 3 0 :=
  have hc := unload_spec fullLib (Load fullLib alsaParams (Proc.fresh 3 0)).2
  ⟨by decide, (hc.1 (by decide)).1, (unload_spec fullLib (Proc.fresh 3 0)).2.1 (by decide)⟩

end SingleCall

/-! ## Sequences of `Load()` and `Unload()` calls -/

section Sequences

variable {W : Type} {N : Nat}

theorem openAttempts_append (a b : List NativeCall) :
    openAttempts (a ++ b) = openAttempts a + openAttempts b := by
  induction a with
  | nil => simp [openAttempts]
  | cons c cs ih => cases c <;> (simp [openAttempts, ih]; try omega)

theorem failedOpens_append (a b : List NativeCall) :
    failedOpens (a ++ b) = failedOpens a + failedOpens b := by
  induction a with
  | nil => simp [failedOpens]
  | cons c cs ih =>
    cases c with
    | loadDll name h =>
      by_cases hh : h = kInvalidDllHandle <;> (simp [failedOpens, ih, hh]; try omega)
    | loadSymbols h ok => simp [failedOpens, ih]
    | unloadDll h => simp [failedOpens, ih]

theorem resolutionFailures_append (a b : List NativeCall) :
    resolutionFailures (a ++ b) = resolutionFailures a + resolutionFailures b := by
  induction a with
  | nil => simp [resolutionFailures]
  | cons c cs ih =>
    cases c with
    | loadDll name h => simp [resolutionFailures, ih]
    | loadSymbols h ok => cases ok <;> (simp [resolutionFailures, ih]; try omega)
    | unloadDll h => simp [resolutionFailures, ih]

theorem loadInvariant_fresh (w : W) : LoadInvariant (Proc.fresh N w) 0 := by
  simp [LoadInvariant, Proc.fresh, LateBindingSymbolTable.new, IsLoaded, openAttempts,
    failedOpens, resolutionFailures]

theorem loadInvariant_load (lib : NativeLib W N) (p : TableParams N) (s : Proc W N) (u : Nat)
    (h : LoadInvariant s u) : LoadInvariant (Load lib p s).2 u := by
  obtain ⟨h1, h2, h3, h4, h5⟩ := h
  by_cases hl : IsLoaded s.table = true
  · rw [load_of_loaded lib p s hl]; exact ⟨h1, h2, h3, h4, h5⟩
  · have hl0 : IsLoaded s.table = false := by simpa using hl
    by_cases hf : s.table.undefined_symbols_ = true
    · rw [load_of_failed lib p s hl0 hf]; exact ⟨h1, h2, h3, h4, h5⟩
    · have hf0 : s.table.undefined_symbols_ = false := by simpa using hf
      have h3a := h3 hf0
      have h4a := h4 hl0 hf0
      by_cases ho : (openResult lib p s).1 = kInvalidDllHandle
      · rw [load_open_fails lib p s hl0 hf0 ho]
        simp only [LoadInvariant, openAttempts_append, failedOpens_append,
          resolutionFailures_append]
        simp [IsLoaded, openAttempts, failedOpens, resolutionFailures]
        omega
      · by_cases hr : (resolveResult lib p s).1 = true
        · rw [load_succeeds lib p s hl0 hf0 ho hr]
          simp only [LoadInvariant, openAttempts_append, failedOpens_append,
            resolutionFailures_append]
          simp [IsLoaded, openAttempts, failedOpens, resolutionFailures, ho]
          omega
        · have hr0 : (resolveResult lib p s).1 = false := by simpa using hr
          rw [load_resolution_fails lib p s ⟨hl0, hf0, ho, hr0⟩]
          simp only [LoadInvariant, openAttempts_append, failedOpens_append,
            resolutionFailures_append]
          simp [IsLoaded, openAttempts, failedOpens, resolutionFailures, ho]
          omega

theorem loadInvariant_unload (lib : NativeLib W N) (s : Proc W N) (u : Nat)
    (h : LoadInvariant s u) : LoadInvariant (Unload lib s) (u + 1) := by
  obtain ⟨h1, h2, h3, h4, h5⟩ := h
  by_cases hl : IsLoaded s.table = true
  · have hf0 : s.table.undefined_symbols_ = false := by
      cases hf : s.table.undefined_symbols_ with
      | false => rfl
      | true => rw [h1 hf] at hl; simp at hl
    have h3a := h3 hf0
    rw [unload_of_loaded lib s hl]
    simp only [LoadInvariant, openAttempts_append, failedOpens_append,
      resolutionFailures_append]
    simp [IsLoaded, openAttempts, failedOpens, resolutionFailures, hf0]
    omega
  · have hl0 : IsLoaded s.table = false := by simpa using hl
    rw [unload_of_not_loaded lib s hl0]
    refine ⟨h1, h2, h3, ?_, ?_⟩
    · intro _ hf0
      have := h4 hl0 hf0
      omega
    · omega

theorem loadInvariant_run (lib : NativeLib W N) (p : TableParams N) (ops : List Op) :
    ∀ (s : Proc W N) (u : Nat), LoadInvariant s u →
      LoadInvariant (run lib p ops s) (u + unloadOps ops) := by
  induction ops with
  | nil => intro s u h; simpa [run, unloadOps] using h
  | cons op ops ih =>
    intro s u h
    cases op with
    | load =>
      have := ih _ u (loadInvariant_load lib p s u h)
      simpa [run, step, unloadOps] using this
    | unload =>
      have := ih _ (u + 1) (loadInvariant_unload lib s u h)
      simpa [run, step, unloadOps, Nat.add_assoc, Nat.add_comm 1] using this

/-- C6, as stated, fails: a successful `Load()`, an `Unload()` and a second
`Load()` open the native library twice, and so do two `Load()` calls when the
library cannot be opened. -/
theorem open_attempted_more_than_once :
    ¬ (openAttempts
          (run fullLib alsaParams [Op.load, Op.unload, Op.load] (Proc.fresh 3 0)).calls ≤ 1) ∧
      ¬ (openAttempts
          (run (absentLib 3) alsaParams [Op.load, Op.load] (Proc.fresh 3 0)).calls ≤ 1) := by
  decide

/-- C6, amended: over any sequence of calls on a fresh table, and for every
native library, the number of native opens is at most one plus the number of
opens that returned the invalid handle plus the number of `Unload()` calls, and
symbol resolution fails at most once. -/
theorem open_attempts_bounded (lib : NativeLib W N) (p : TableParams N) (w : W)
    (ops : List Op) :
    openAttempts (run lib p ops (Proc.fresh N w)).calls ≤
        1 + failedOpens (run lib p ops (Proc.fresh N w)).calls + unloadOps ops ∧
      resolutionFailures (run lib p ops (Proc.fresh N w)).calls ≤ 1 := by
  have h := loadInvariant_run lib p ops (Proc.fresh N w) 0 (loadInvariant_fresh w)
  obtain ⟨_, h2, _, _, h5⟩ := h
  exact ⟨by omega, h2⟩

/-- C7: in every state reached from a fresh table by `Load()` and `Unload()`
calls, a set `undefined_symbols_` flag implies that the table is not loaded. -/
theorem failed_implies_not_loaded (lib : NativeLib W N) (p : TableParams N) (w : W)
    (ops : List Op) :
    (run lib p ops (Proc.fresh N w)).table.undefined_symbols_ = true →
      IsLoaded (run lib p ops (Proc.fresh N w)).table = false :=
  (loadInvariant_run lib p ops (Proc.fresh N w) 0 (loadInvariant_fresh w)).1

/-- C7, after a failed resolution followed by further calls. -/
theorem failed_implies_not_loaded_witness :
    (run partialLib alsaParams [Op.load, Op.unload, Op.load]
        (Proc.fresh 3 0)).table.undefined_symbols_ = true ∧
      IsLoaded (run partialLib alsaParams [Op.load, Op.unload, Op.load]
        (Proc.fresh 3 0)).table = false :=
  ⟨by decide,
    failed_implies_not_loaded partialLib alsaParams 0 [Op.load, Op.unload, Op.load]
      (by decide)⟩

theorem step_keeps_failed (lib : NativeLib W N) (p : TableParams N) (s : Proc W N) (op : Op)
    (hf : s.table.undefined_symbols_ = true) :
    (step lib p s op).table.undefined_symbols_ = true := by
  cases op with
  | load =>
    by_cases hl : IsLoaded s.table = true
    · simp [step, load_of_loaded lib p s hl, hf]
    · have hl0 : IsLoaded s.table = false := by simpa using hl
      simp [step, load_of_failed lib p s hl0 hf, hf]
  | unload =>
    by_cases hl : IsLoaded s.table = true
    · simp [step, unload_of_loaded lib s hl, hf]
    · have hl0 : IsLoaded s.table = false := by simpa using hl
      simp [step, unload_of_not_loaded lib s hl0, hf]

theorem run_keeps_failed (lib : NativeLib W N) (p : TableParams N) (ops : List Op) :
    ∀ s : Proc W N, s.table.undefined_symbols_ = true →
      (run lib p ops s).table.undefined_symbols_ = true := by
  induction ops with
  | nil => intro s hf; exact hf
  | cons op ops ih =>
    intro s hf
    exact ih _ (step_keeps_failed lib p s op hf)

theorem resolutionFails_of_flag_set (lib : NativeLib W N) (p : TableParams N) (s : Proc W N)
    (h0 : s.table.undefined_symbols_ = false)
    (h1 : (Load lib p s).2.table.undefined_symbols_ = true) : ResolutionFails lib p s := by
  by_cases hl : IsLoaded s.table = true
  · rw [load_of_loaded lib p s hl] at h1; simp [h0] at h1
  · have hl0 : IsLoaded s.table = false := by simpa using hl
    by_cases ho : (openResult lib p s).1 = kInvalidDllHandle
    · rw [load_open_fails lib p s hl0 h0 ho] at h1; simp at h1
    · by_cases hr : (resolveResult lib p s).1 = true
      · rw [load_succeeds lib p s hl0 h0 ho hr] at h1; simp at h1
      · exact ⟨hl0, h0, ho, by simpa using hr⟩

/-- C8: `undefined_symbols_` is false on construction; once it is true, no
sequence of `Load()` and `Unload()` calls makes it false again; and from the
`Load()` that set it onwards the table is never loaded again. -/
theorem failed_flag_is_one_way (lib : NativeLib W N) (p : TableParams N) :
    (∀ w : W, (Proc.fresh N w).table.undefined_symbols_ = false) ∧
      (∀ (s : Proc W N) (ops : List Op), s.table.undefined_symbols_ = true →
        (run lib p ops s).table.undefined_symbols_ = true) ∧
      (∀ (s : Proc W N) (ops : List Op), s.table.undefined_symbols_ = false →
        (Load lib p s).2.table.undefined_symbols_ = true →
          (run lib p ops (Load lib p s).2).table.undefined_symbols_ = true ∧
            IsLoaded (run lib p ops (Load lib p s).2).table = false) := by
  refine ⟨fun w => rfl, fun s ops hf => run_keeps_failed lib p ops s hf, ?_⟩
  intro s ops h0 h1
  have hfail := resolutionFails_of_flag_set lib p s h0 h1
  have hl : IsLoaded (Load lib p s).2.table = false := by
    rw [load_resolution_fails lib p s hfail]; simp [IsLoaded]
  rw [run_of_failed lib p ops (Load lib p s).2 hl h1]
  exact ⟨h1, hl⟩

/-- C8, on a table whose library lacks a symbol: the flag set by the first
`Load()` survives an `Unload()` and two more `Load()` calls. -/
theorem failed_flag_is_one_way_witness :
    (Proc.fresh 3 (0 : Nat)).table.undefined_symbols_ = false ∧
      (Load partialLib alsaParams (Proc.fresh 3 0)).2.table.undefined_symbols_ = true ∧
      (run partialLib alsaParams [Op.unload, Op.load, Op.load]
        (Load partialLib alsaParams (Proc.fresh 3 0)).2).table.undefined_symbols_ = true ∧
      IsLoaded (run partialLib alsaParams [Op.unload, Op.load, Op.load]
        (Load partialLib alsaParams (Proc.fresh 3 0)).2).table = false :=
  have hc := (failed_flag_is_one_way partialLib alsaParams).2.2 (Proc.fresh 3 0)
    [Op.unload, Op.load, Op.load] (by decide) (by decide)
  ⟨by decide, by decide, hc.1, hc.2⟩

end Sequences

/-! ## Symbol accessors -/

section Accessors

variable {N : Nat}

theorem read_of_nonneg_of_lt {α : Type} (a : CArray α N) (index : Int) (h0 : 0 ≤ index)
    (hN : index < NumSymbols N) : ∃ v, a.read index = some v := by
  have hlt : index.toNat < a.val.length := by
    rw [a.property]
    unfold NumSymbols at hN
    omega
  exact ⟨a.val[index.toNat], by simp [CArray.read, h0, List.getElem?_eq_getElem hlt]⟩

/-- C10, as stated, fails: on a loaded table of three symbols the index `-1`
passes the assertions of `GetSymbol` and of `GetSymbolName`, and both array
accesses are out of bounds. -/
theorem accessors_negative_index_out_of_bounds :
    IsLoaded (Load fullLib alsaParams (Proc.fresh 3 0)).2.table = true ∧
      (-1 : Int) < NumSymbols 3 ∧ ¬ (0 ≤ (-1 : Int) ∧ (-1 : Int) < 3) ∧
      GetSymbol (Load fullLib alsaParams (Proc.fresh 3 0)).2.table (-1) = Access.outOfBounds ∧
      GetSymbolName alsaParams (-1) = Access.outOfBounds := by
  decide

/-- C10, amended: for a non-negative index, whenever the assertions of
`GetSymbol` (table loaded, index below `NumSymbols()`) hold the access
`symbols_[index]` is within bounds and its cell is returned, and whenever the
assertion of `GetSymbolName` holds the access `kSymbolNames[index]` is within
bounds and its cell is returned. -/
theorem accessors_in_bounds (t : LateBindingSymbolTable N) (p : TableParams N) (index : Int)
    (h0 : 0 ≤ index) :
    (IsLoaded t = true → index < NumSymbols N →
        (0 ≤ index ∧ index < (N : Int)) ∧
          ∃ sym, t.symbols_.read index = some sym ∧ GetSymbol t index = Access.value sym) ∧
      (index < NumSymbols N →
        (0 ≤ index ∧ index < (N : Int)) ∧
          ∃ name, p.kSymbolNames.read index = some name ∧
            GetSymbolName p index = Access.value name) := by
  constructor
  · intro hl hN
    obtain ⟨sym, hsym⟩ := read_of_nonneg_of_lt t.symbols_ index h0 hN
    exact ⟨⟨h0, hN⟩, sym, hsym, by simp [GetSymbol, hl, hN, hsym]⟩
  · intro hN
    obtain ⟨name, hname⟩ := read_of_nonneg_of_lt p.kSymbolNames index h0 hN
    exact ⟨⟨h0, hN⟩, name, hname, by simp [GetSymbolName, hN, hname]⟩

/-- C10, amended, at index `2` of a loaded table of three symbols. -/
theorem accessors_in_bounds_witness :
    (0 : Int) ≤ 2 ∧
      IsLoaded (Load fullLib alsaParams (Proc.fresh 3 0)).2.table = true ∧
      (2 : Int) < NumSymbols 3 ∧
      (∃ sym, (Load fullLib alsaParams (Proc.fresh 3 0)).2.table.symbols_.read 2 = some sym ∧
        GetSymbol (Load fullLib alsaParams (Proc.fresh 3 0)).2.table 2 = Access.value sym) ∧
      (∃ name, alsaParams.kSymbolNames.read 2 = some name ∧
        GetSymbolName alsaParams 2 = Access.value name) :=
  have hc := accessors_in_bounds (Load fullLib alsaParams (Proc.fresh 3 0)).2.table
    alsaParams 2 (by decide)
  ⟨by decide, by decide, by decide, (hc.1 (by decide) (by decide)).2, (hc.2 (by decide)).2⟩

end Accessors

end adm_linux

/-! ## Audio device: `Start*` before `Init*` -/

/-- C9: for both directions, `StartRecording`/`StartPlayout` on a device whose
stream is not initialized fails with ConfigurationError, changes nothing, and
leaves `Recording()`/`Playing()` false. -/
theorem start_without_init_fails (d : AudioDeviceLinuxALSA) :
    (RecordingIsInitialized d = false →
        (StartRecording d).1 = Status.error DeviceError.ConfigurationError ∧
          (StartRecording d).2 = d ∧ Recording (StartRecording d).2 = false) ∧
      (PlayoutIsInitialized d = false →
        (StartPlayout d).1 = Status.error DeviceError.ConfigurationError ∧
          (StartPlayout d).2 = d ∧ Playing (StartPlayout d).2 = false) := by
  obtain ⟨r, q⟩ := d
  constructor
  · intro h
    cases r <;> simp_all [RecordingIsInitialized, StartRecording, Recording,
      StreamState.isInitialized, StreamState.start, StreamState.isStarted]
  · intro h
    cases q <;> simp_all [PlayoutIsInitialized, StartPlayout, Playing,
      StreamState.isInitialized, StreamState.start, StreamState.isStarted]

/-- C9, on a device whose record stream is uninitialized while its playout
stream is running, and on one whose playout stream is uninitialized. -/
theorem start_without_init_fails_witness :
    RecordingIsInitialized ⟨StreamState.Uninitialized, StreamState.Started⟩ = false ∧
      (StartRecording ⟨StreamState.Uninitialized, StreamState.Started⟩).1 =
        Status.error DeviceError.ConfigurationError ∧
      Recording (StartRecording ⟨StreamState.Uninitialized, StreamState.Started⟩).2 = false ∧
      (StartPlayout ⟨StreamState.Initialized, StreamState.Uninitialized⟩).1 =
        Status.error DeviceError.ConfigurationError ∧
      Playing (StartPlayout ⟨StreamState.Initialized, StreamState.Uninitialized⟩).2 = false :=
  have hr := (start_without_init_fails ⟨StreamState.Uninitialized, StreamState.Started⟩).1
    (by decide)
  have hp := (start_without_init_fails ⟨StreamState.Initialized, StreamState.Uninitialized⟩).2
    (by decide)
  ⟨by decide, hr.1, hr.2.2, hp.1, hp.2.2⟩

/-! ## Media service: stream ids -/

theorem afterCalls_counter (bits : Nat) (k : Nat) :
    (MediaService.afterCalls bits k).max_stream_id_ = k % 2 ^ bits := by
  induction k with
  | zero => simp [MediaService.afterCalls, MediaService.new]
  | succ k ih =>
    simp only [MediaService.afterCalls, GenerateStreamId, ih]
    exact Nat.mod_add_mod k (2 ^ bits) 1

theorem streamIdOfCall_eq (bits : Nat) (hbits : 32 ≤ bits) (k : Nat) :
    streamIdOfCall bits k = (k + 1) % 2 ^ 32 := by
  simp only [streamIdOfCall, GenerateStreamId, afterCalls_counter]
  rw [Nat.mod_add_mod]
  exact Nat.mod_mod_of_dvd (k + 1) (Nat.pow_dvd_pow 2 hbits)

/-- C11: on a freshly constructed `MediaService` whose counter is an unsigned
integer of at least 32 bits, call number `k + 1` of `GenerateStreamId` returns
`k + 1` modulo `2 ^ 32`; each call returns the previous result plus one (modulo
`2 ^ 32`, and exactly plus one within the first `2 ^ 32 - 1` calls); and the ids
of the first `2 ^ 32 - 1` calls are strictly increasing, pairwise distinct and
never `0`. -/
theorem generateStreamId_sequence (bits : Nat) (hbits : 32 ≤ bits) :
    (∀ k : Nat, streamIdOfCall bits k = (k + 1) % 2 ^ 32) ∧
      (∀ k : Nat, streamIdOfCall bits (k + 1) = (streamIdOfCall bits k + 1) % 2 ^ 32) ∧
      (∀ k : Nat, k + 2 ≤ 2 ^ 32 - 1 →
        streamIdOfCall bits (k + 1) = streamIdOfCall bits k + 1) ∧
      (∀ i j : Nat, i < j → j + 1 ≤ 2 ^ 32 - 1 →
        streamIdOfCall bits i < streamIdOfCall bits j) ∧
      (∀ i j : Nat, i + 1 ≤ 2 ^ 32 - 1 → j + 1 ≤ 2 ^ 32 - 1 →
        streamIdOfCall bits i = streamIdOfCall bits j → i = j) ∧
      (∀ k : Nat, k + 1 ≤ 2 ^ 32 - 1 → streamIdOfCall bits k ≠ 0) := by
  have hpow : (2 : Nat) ^ 32 = 4294967296 := by norm_num
  refine ⟨streamIdOfCall_eq bits hbits, ?_, ?_, ?_, ?_, ?_⟩
  · intro k
    rw [streamIdOfCall_eq bits hbits, streamIdOfCall_eq bits hbits, hpow]
    omega
  · intro k hk
    rw [streamIdOfCall_eq bits hbits, streamIdOfCall_eq bits hbits]
    rw [hpow] at hk ⊢
    omega
  · intro i j hij hj
    rw [streamIdOfCall_eq bits hbits, streamIdOfCall_eq bits hbits]
    rw [hpow] at hj ⊢
    omega
  · intro i j hi hj h
    rw [streamIdOfCall_eq bits hbits, streamIdOfCall_eq bits hbits] at h
    rw [hpow] at hi hj h
    omega
  · intro k hk
    rw [streamIdOfCall_eq bits hbits]
    rw [hpow] at hk ⊢
    omega

/-- C11, for a `uint32_t` counter: the third call returns `3`, which is one more
than the second, and the first id is not `0`. -/
theorem generateStreamId_sequence_witness :
    32 ≤ 32 ∧ streamIdOfCall 32 2 = (2 + 1) % 2 ^ 32 ∧
      streamIdOfCall 32 2 = streamIdOfCall 32 1 + 1 ∧
      streamIdOfCall 32 1 < streamIdOfCall 32 2 ∧ streamIdOfCall 32 0 ≠ 0 :=
  have hc := generateStreamId_sequence 32 (by decide)
  ⟨by decide, hc.1 2, hc.2.2.1 1 (by decide), hc.2.2.2.1 1 2 (by decide) (by decide),
    hc.2.2.2.2.2 0 (by decide)⟩

end avp
